import Mathlib

/-!
Verification of the runez process-execution helpers.

Shallow embedding of the relevant parts of `runez.py` and
`src/runez/program.py`: the argument flattener (`flatten`/`flattened`),
the executable resolver (`which`/`is_executable`), the error policy
(`abort`), the parent-folder walker (`find_parent_folder`), the
PyCharm argument-wrapping context manager (`_WrappedArgs`) and the
process invoker (`run`).  OS interaction (filesystem, environment,
spawning) is modelled by an explicit world record and an effect trace.
-/

namespace Runez

/-! ### String helpers

Models of the Python `str` operations the embedded code uses, written over
the character list of the string so that concrete instances evaluate in the
kernel. -/

/-- Python `s.startswith(pre)`. -/
def pyStartswith (s pre : String) : Bool :=
  pre.data.isPrefixOf s.data

/-- Python `s.endswith(suf)`. -/
def pyEndswith (s suf : String) : Bool :=
  suf.data.isSuffixOf s.data

/-- Python `needle in hay` on strings: substring containment. -/
def pySubstr (needle hay : List Char) : Bool :=
  needle.isPrefixOf hay ||
    match hay with
    | [] => false
    | _ :: t => pySubstr needle t

/-- Python `hay.__contains__(needle)` at the `String` level. -/
def pyIn (needle hay : String) : Bool :=
  pySubstr needle.data hay.data

/-- Lower-casing of one ASCII character, as `str.lower` does on the
ASCII folder names the code compares. -/
def pyLowerChar (c : Char) : Char :=
  if 'A' ≤ c ∧ c ≤ 'Z' then Char.ofNat (c.toNat + 32) else c

/-- Python `s.lower()` (ASCII case folding). -/
def pyLower (s : String) : String :=
  ⟨s.data.map pyLowerChar⟩

/-- Python `s.split(sep)` for a one-character separator `sep`
(`os.path.pathsep` is the single character `:` on POSIX). -/
def splitSep (sep : Char) : List Char → List (List Char)
  | [] => [[]]
  | c :: t =>
    match splitSep sep t with
    | [] => [[]]
    | h :: r => if c = sep then [] :: h :: r else (c :: h) :: r

/-- `s.split(sep)` returning strings. -/
def pySplit (s : String) (sep : Char) : List String :=
  (splitSep sep s.data).map fun l => ⟨l⟩

/-- Whitespace for Python `str.strip()` (the ASCII subset; the embedded code
only ever strips process output). -/
def pySpace (c : Char) : Bool :=
  c = ' ' || c = '\t' || c = '\n' || c = '\x0d'

/-- Python `s.strip()`. -/
def pyStrip (s : String) : String :=
  ⟨((s.data.dropWhile pySpace).reverse.dropWhile pySpace).reverse⟩

/-- Python `s[:n]`. -/
def pyTake (s : String) (n : Nat) : String :=
  ⟨s.data.take n⟩

/-- Model of the Python values that `runez.flatten` traverses: None, ints,
strings, and list/tuple/set nesting (set iteration order is modelled by the
list order). -/
inductive PyVal where
  | vnone : PyVal
  | vint : Int → PyVal
  | vstr : String → PyVal
  | vlist : List PyVal → PyVal

mutual

/-- Decidable equality on `PyVal` (hand-rolled: the nesting through `List`
defeats the automatic derivation). -/
def PyVal.deq : (a b : PyVal) → Decidable (a = b)
  | .vnone, .vnone => .isTrue rfl
  | .vnone, .vint _ => .isFalse (fun h => PyVal.noConfusion h)
  | .vnone, .vstr _ => .isFalse (fun h => PyVal.noConfusion h)
  | .vnone, .vlist _ => .isFalse (fun h => PyVal.noConfusion h)
  | .vint _, .vnone => .isFalse (fun h => PyVal.noConfusion h)
  | .vint x, .vint y =>
    if h : x = y then .isTrue (by rw [h]) else .isFalse (by intro c; injection c; contradiction)
  | .vint _, .vstr _ => .isFalse (fun h => PyVal.noConfusion h)
  | .vint _, .vlist _ => .isFalse (fun h => PyVal.noConfusion h)
  | .vstr _, .vnone => .isFalse (fun h => PyVal.noConfusion h)
  | .vstr _, .vint _ => .isFalse (fun h => PyVal.noConfusion h)
  | .vstr x, .vstr y =>
    if h : x = y then .isTrue (by rw [h]) else .isFalse (by intro c; injection c; contradiction)
  | .vstr _, .vlist _ => .isFalse (fun h => PyVal.noConfusion h)
  | .vlist _, .vnone => .isFalse (fun h => PyVal.noConfusion h)
  | .vlist _, .vint _ => .isFalse (fun h => PyVal.noConfusion h)
  | .vlist _, .vstr _ => .isFalse (fun h => PyVal.noConfusion h)
  | .vlist xs, .vlist ys =>
    match PyVal.deqList xs ys with
    | .isTrue h => .isTrue (by rw [h])
    | .isFalse h => .isFalse (by intro c; injection c; contradiction)

/-- Decidable equality on lists of `PyVal`. -/
def PyVal.deqList : (a b : List PyVal) → Decidable (a = b)
  | [], [] => .isTrue rfl
  | [], _ :: _ => .isFalse (fun h => List.noConfusion h)
  | _ :: _, [] => .isFalse (fun h => List.noConfusion h)
  | x :: xs, y :: ys =>
    match PyVal.deq x y with
    | .isFalse h => .isFalse (by intro c; injection c; contradiction)
    | .isTrue h1 =>
      match PyVal.deqList xs ys with
      | .isTrue h2 => .isTrue (by rw [h1, h2])
      | .isFalse h => .isFalse (by intro c; injection c; contradiction)

end

instance : DecidableEq PyVal := PyVal.deq

/-- Python truthiness test (`if not value:`) on the modelled values:
None, 0, the empty string and empty collections are falsy. -/
def PyVal.isFalsy : PyVal → Bool
  | .vnone => true
  | .vint n => n == 0
  | .vstr s => s == ""
  | .vlist xs => xs.isEmpty

/-- `result and result[-1].startswith("-")` from `runez.flatten`: true when the
accumulated result is nonempty and its last element is a string starting with
a dash.  (In Python a non-string last element would raise AttributeError; the
flag-popping path only ever sees command-line string tokens.) -/
def lastIsFlag (result : List PyVal) : Bool :=
  match result.getLast? with
  | some (.vstr s) => pyStartswith s "-"
  | _ => false

mutual

/-- Embeds `runez.flatten` (runez.py lines 268-288) at `separator=None`,
the default used by every call the claims concern; with `separator=None`
the `separator is not None and ...` branch of the source is never taken.
`result` is the accumulator list that the Python code mutates in place. -/
def flatten (result : List PyVal) (value : PyVal) (unique : Bool) : List PyVal :=
  if value.isFalsy then
    -- "Convenience: allow to filter out --foo None easily"
    if value = PyVal.vnone ∧ unique = false ∧ lastIsFlag result = true then
      result.dropLast
    else
      result
  else
    match value with
    | .vlist items => flattenList result items unique
    | v => if unique = false ∨ v ∉ result then result ++ [v] else result

/-- The `for item in value: flatten(result, item, ...)` loop of `runez.flatten`. -/
def flattenList (result : List PyVal) (items : List PyVal) (unique : Bool) : List PyVal :=
  match items with
  | [] => result
  | x :: xs => flattenList (flatten result x unique) xs unique

end

/-- Embeds `runez.flattened` (runez.py lines 291-300): flatten into a fresh
accumulator. -/
def flattened (value : PyVal) (unique : Bool) : List PyVal :=
  flatten [] value unique

example : flattened (.vlist [.vstr "a", .vnone, .vstr "b"]) true = [.vstr "a", .vstr "b"] := by
  simp +decide [flattened, flatten, flattenList, lastIsFlag, PyVal.isFalsy]

example : flattened (.vlist [.vstr "--foo", .vnone]) false = [] := by
  simp +decide [flattened, flatten, flattenList, lastIsFlag, PyVal.isFalsy]

example : flattened (.vlist [.vstr "--foo", .vnone]) true = [.vstr "--foo"] := by
  simp +decide [flattened, flatten, flattenList, lastIsFlag, PyVal.isFalsy]

/-- Claim C4: when a `None` leaf is flattened right after a flag-like token
(the last emitted value starts with a dash), `unique=False` pops that flag and
never emits the `None`, while `unique=True` keeps the flag and only drops the
`None`. -/
theorem flatten_none_after_flag (result : List PyVal) (h : lastIsFlag result = true) :
    flatten result PyVal.vnone false = result.dropLast ∧
      flatten result PyVal.vnone true = result := by
  constructor
  · simp [flatten, PyVal.isFalsy, h]
  · simp [flatten, PyVal.isFalsy]

theorem flatten_none_after_flag_witness :
    lastIsFlag [PyVal.vstr "--foo"] = true ∧
      (flatten [PyVal.vstr "--foo"] PyVal.vnone false = List.dropLast [PyVal.vstr "--foo"] ∧
        flatten [PyVal.vstr "--foo"] PyVal.vnone true = [PyVal.vstr "--foo"]) :=
  ⟨by decide, flatten_none_after_flag [PyVal.vstr "--foo"] (by decide)⟩

/-- Claim C10: every falsy scalar leaf other than `None` itself — `0`, the
empty string, an empty list/tuple/set — is silently omitted by `flatten`: the
accumulated result is returned unchanged, and in particular no preceding flag
token is popped (the flag-popping path requires a literal `None`). -/
theorem flatten_falsy_non_none_dropped (result : List PyVal) (v : PyVal) (unique : Bool)
    (hf : v.isFalsy = true) (hn : v ≠ PyVal.vnone) :
    flatten result v unique = result := by
  rw [flatten.eq_def]
  simp [hf, hn]

theorem flatten_falsy_non_none_dropped_witness :
    ((PyVal.vint 0).isFalsy = true ∧ PyVal.vint 0 ≠ PyVal.vnone ∧
        flatten [PyVal.vstr "-q"] (PyVal.vint 0) false = [PyVal.vstr "-q"]) ∧
      ((PyVal.vstr "").isFalsy = true ∧
        flatten [PyVal.vstr "-q"] (PyVal.vstr "") false = [PyVal.vstr "-q"]) ∧
      ((PyVal.vlist []).isFalsy = true ∧
        flatten [PyVal.vstr "-q"] (PyVal.vlist []) true = [PyVal.vstr "-q"]) :=
  ⟨⟨by decide, by decide,
      flatten_falsy_non_none_dropped [PyVal.vstr "-q"] (PyVal.vint 0) false (by decide) (by decide)⟩,
    ⟨by decide,
      flatten_falsy_non_none_dropped [PyVal.vstr "-q"] (PyVal.vstr "") false (by decide) (by decide)⟩,
    ⟨by decide,
      flatten_falsy_non_none_dropped [PyVal.vstr "-q"] (PyVal.vlist []) true (by decide) (by decide)⟩⟩

/-- Claim C5, counterexample: with the default `unique=True`, flattening an
already-flat None-free list of strings is NOT always a no-op — a duplicated
string is collapsed, and an empty string is dropped as falsy. -/
theorem flattened_flat_noop_fails :
    flattened (PyVal.vlist [PyVal.vstr "a", PyVal.vstr "a"]) true ≠
        [PyVal.vstr "a", PyVal.vstr "a"] ∧
      flattened (PyVal.vlist [PyVal.vstr ""]) true ≠ [PyVal.vstr ""] := by
  constructor <;> simp +decide [flattened, flatten, flattenList, lastIsFlag, PyVal.isFalsy]

/-- One string leaf that is nonempty and not yet accumulated is appended. -/
theorem flatten_string_append (result : List PyVal) (s : String) (hs : s ≠ "")
    (hmem : PyVal.vstr s ∉ result) :
    flatten result (PyVal.vstr s) true = result ++ [PyVal.vstr s] := by
  rw [flatten.eq_def]
  simp [PyVal.isFalsy, hs, hmem]

/-- Folding `flatten` over distinct nonempty strings that are disjoint from
the accumulator appends them in order. -/
theorem flattenList_strings_append (l : List String) : ∀ result : List PyVal,
    (∀ s ∈ l, s ≠ "") → l.Nodup → (∀ s ∈ l, PyVal.vstr s ∉ result) →
    flattenList result (l.map PyVal.vstr) true = result ++ l.map PyVal.vstr := by
  induction l with
  | nil => intro result _ _ _; simp [flattenList]
  | cons s t ih =>
    intro result h1 h2 h3
    rw [List.map_cons, flattenList]
    rw [flatten_string_append result s (h1 s (by simp)) (h3 s (by simp))]
    rw [ih (result ++ [PyVal.vstr s]) (fun x hx => h1 x (by simp [hx]))
      (List.Nodup.of_cons h2)]
    · simp
    · intro x hx
      simp only [List.mem_append, List.mem_singleton]
      rintro (hmem | heq)
      · exact h3 x (by simp [hx]) hmem
      · have : x = s := by injection heq
        subst this
        exact (List.nodup_cons.mp h2).1 hx

/-- Claim C5 (amended): with default arguments, flattening an already-flat
list of pairwise-distinct nonempty strings (no None values) is a no-op.  (As
stated the claim fails: default `unique=True` collapses duplicates, and empty
strings are falsy and dropped — see the counterexample.) -/
theorem flattened_distinct_nonempty_noop (l : List String) (h1 : ∀ s ∈ l, s ≠ "")
    (h2 : l.Nodup) :
    flattened (PyVal.vlist (l.map PyVal.vstr)) true = l.map PyVal.vstr := by
  cases l with
  | nil => simp [flattened, flatten, PyVal.isFalsy]
  | cons s t =>
    rw [flattened, flatten.eq_def]
    simp only [PyVal.isFalsy, List.map_cons, List.isEmpty_cons, Bool.false_eq_true,
      if_false]
    exact flattenList_strings_append (s :: t) [] h1 h2 (by simp)

theorem flattened_distinct_nonempty_noop_witness :
    ((∀ s ∈ ["ls", "-l"], s ≠ "") ∧ List.Nodup ["ls", "-l"]) ∧
      flattened (PyVal.vlist [PyVal.vstr "ls", PyVal.vstr "-l"]) true =
        [PyVal.vstr "ls", PyVal.vstr "-l"] :=
  ⟨⟨by decide, by decide⟩,
    flattened_distinct_nonempty_noop ["ls", "-l"] (by decide) (by decide)⟩

/-! ### Executable resolution -/

/-- The POSIX world the resolver consults: the filesystem predicates behind
`os.path.isfile` and `os.access(..., os.X_OK)`, `os.environ.get("PATH")`,
`os.getcwd()`, `sys.prefix` (the interpreter's venv root), and the
`State.anchors`/`HOME` data used by `short()`. -/
structure Sys where
  isFile : String → Bool
  accessX : String → Bool
  pathVar : Option String
  cwd : String
  venvRoot : String
  anchors : List String
  home : String

/-- Embeds `is_executable` (program.py lines 76-87, non-Windows branch;
identically runez.py lines 757-762): the path is truthy, an existing regular
file, and executable. -/
def is_executable (w : Sys) (path : String) : Bool :=
  path ≠ "" && w.isFile path && w.accessX path

/-- `os.path.isabs` on POSIX: the path starts with a slash. -/
def isabs (p : String) : Bool :=
  pyStartswith p "/"

/-- `os.path.join(a, b)` on POSIX (as exercised by `which`: two components). -/
def pjoin (a b : String) : String :=
  if pyStartswith b "/" then b
  else if a = "" ∨ pyEndswith a "/" = true then a ++ b
  else a ++ "/" ++ b

/-- The `for p in os.environ.get("PATH", "").split(os.path.pathsep):` loop of
`which` (program.py lines 247-253): first PATH entry whose join with the
program is executable, skipping entries under the interpreter's own venv when
`ignore_own_venv` is set. -/
def whichSearch (w : Sys) (program : String) (ignoreOwnVenv : Bool) :
    List String → Option String
  | [] => none
  | p :: rest =>
    let fp := pjoin p program
    if fp ≠ "" ∧ (ignoreOwnVenv = false ∨ pyStartswith fp w.venvRoot = false) ∧
        is_executable w fp = true then
      some fp
    else
      whichSearch w program ignoreOwnVenv rest

/-- Embeds `which` (program.py lines 229-259, non-Windows branches).
A falsy program resolves to None; an absolute path is validated directly;
otherwise the PATH entries are searched in order and the current working
directory is the final fallback. -/
def which (w : Sys) (program : Option String) (ignoreOwnVenv : Bool) : Option String :=
  match program with
  | none => none
  | some p =>
    if p = "" then none
    else if isabs p = true then
      if is_executable w p then some p else none
    else
      match whichSearch w p ignoreOwnVenv (pySplit (w.pathVar.getD "") ':') with
      | some fp => some fp
      | none =>
        let cand := pjoin w.cwd p
        if is_executable w cand then some cand else none

/-- A sample world: one executable file `/usr/bin/ls`, PATH of two entries. -/
def wExample : Sys :=
  { isFile := fun p => p = "/usr/bin/ls"
    accessX := fun p => p = "/usr/bin/ls"
    pathVar := some "/bin:/usr/bin"
    cwd := "/home/u"
    venvRoot := "/srv/venv"
    anchors := []
    home := "/home/u" }

example : which wExample (some "ls") false = some "/usr/bin/ls" := by decide

example : which wExample (some "/usr/bin/ls") false = some "/usr/bin/ls" := by decide

example : which wExample (some "/etc/passwd") false = none := by decide

/-- Claim C3: for an absolute path, `which` validates the path directly — it
returns the path unchanged exactly when it is an existing executable file and
None otherwise.  The right-hand side mentions only `is_executable w p`, for
every world `w`, so no PATH lookup takes place for absolute inputs. -/
theorem which_absolute (w : Sys) (p : String) (iov : Bool) (h : isabs p = true) :
    which w (some p) iov = if is_executable w p then some p else none := by
  have hp : p ≠ "" := by
    intro he
    subst he
    exact absurd h (by decide)
  rw [which]
  simp [hp, h]

theorem which_absolute_witness :
    (isabs "/usr/bin/ls" = true ∧
        which wExample (some "/usr/bin/ls") false =
          if is_executable wExample "/usr/bin/ls" then some "/usr/bin/ls" else none) ∧
      (isabs "/etc/passwd" = true ∧
        which wExample (some "/etc/passwd") false =
          if is_executable wExample "/etc/passwd" then some "/etc/passwd" else none) :=
  ⟨⟨by decide, which_absolute wExample "/usr/bin/ls" false (by decide)⟩,
    ⟨by decide, which_absolute wExample "/etc/passwd" false (by decide)⟩⟩

/-- The search loop is the first hit of the candidate test, in PATH order. -/
theorem whichSearch_eq_findSome (w : Sys) (program : String) (iov : Bool)
    (entries : List String) :
    whichSearch w program iov entries =
      entries.findSome? (fun e =>
        let fp := pjoin e program
        if fp ≠ "" ∧ (iov = false ∨ pyStartswith fp w.venvRoot = false) ∧
            is_executable w fp = true then
          some fp
        else
          none) := by
  induction entries with
  | nil => rfl
  | cons e rest ih =>
    rw [whichSearch, List.findSome?]
    by_cases hc : pjoin e program ≠ "" ∧
        (iov = false ∨ pyStartswith (pjoin e program) w.venvRoot = false) ∧
        is_executable w (pjoin e program) = true
    · simp [hc]
    · simp [hc, ih]

/-- Claim C7: for a non-absolute program name, `which` returns the first PATH
entry (in order) whose joined candidate passes the executable test — skipping
candidates under the interpreter's own venv when `ignore_own_venv` is set —
and falls back to the current working directory, then None, when no PATH
entry matches. -/
theorem which_relative_search (w : Sys) (p : String) (iov : Bool) (hp : p ≠ "")
    (hab : isabs p = false) :
    which w (some p) iov =
      match (pySplit (w.pathVar.getD "") ':').findSome? (fun e =>
          let fp := pjoin e p
          if fp ≠ "" ∧ (iov = false ∨ pyStartswith fp w.venvRoot = false) ∧
              is_executable w fp = true then
            some fp
          else
            none) with
      | some fp => some fp
      | none => if is_executable w (pjoin w.cwd p) then some (pjoin w.cwd p) else none := by
  rw [which]
  simp [hp, hab, whichSearch_eq_findSome]

theorem which_relative_search_witness :
    ("ls" ≠ "" ∧ isabs "ls" = false) ∧
      which wExample (some "ls") false =
        match (pySplit ((wExample.pathVar).getD "") ':').findSome? (fun e =>
            let fp := pjoin e "ls"
            if fp ≠ "" ∧ (false = false ∨ pyStartswith fp wExample.venvRoot = false) ∧
                is_executable wExample fp = true then
              some fp
            else
              none) with
        | some fp => some fp
        | none =>
          if is_executable wExample (pjoin wExample.cwd "ls") then
            some (pjoin wExample.cwd "ls")
          else
            none :=
  ⟨⟨by decide, by decide⟩, which_relative_search wExample "ls" false (by decide) (by decide)⟩

/-! ### Parent-folder walker -/

/-- `head.rstrip("/")` from `posixpath.split`. -/
def rstripSlash (l : List Char) : List Char :=
  (l.reverse.dropWhile (fun c => c = '/')).reverse

/-- `posixpath.split` on the character list: cut after the last slash, then
strip trailing slashes from the head unless the head is entirely slashes. -/
def posixSplitL (l : List Char) : List Char × List Char :=
  let tail := (l.reverse.takeWhile (fun c => c ≠ '/')).reverse
  let head := l.take (l.length - tail.length)
  if head ≠ [] ∧ ¬ head.all (fun c => c = '/') then (rstripSlash head, tail)
  else (head, tail)

/-- `os.path.split` on POSIX, at the `String` level. -/
def posixSplit (p : String) : String × String :=
  ((⟨(posixSplitL p.data).1⟩ : String), (⟨(posixSplitL p.data).2⟩ : String))

example : posixSplit "/a/b" = ("/a", "b") := by decide

example : posixSplit "a" = ("", "a") := by decide

example : posixSplit "/a/b/" = ("/a/b", "") := by decide

example : posixSplit "//" = ("//", "") := by decide

example : posixSplit "//a" = ("//", "a") := by decide

/-- Embeds `find_parent_folder` (program.py lines 57-73), with an explicit
fuel bound standing for the recursion depth: `none` means the fuel ran out
before the source recursion returned, `some r` means the source recursion
returns `r` within that many calls.  The source base case `not path or
len(path) <= 1` is `path.length ≤ 1` (an empty path has length 0). -/
def find_parent_folder : Nat → String → List String → Option (Option String)
  | 0, _, _ => none
  | fuel + 1, path, basenames =>
    if path.length ≤ 1 then some none
    else
      let dirpath := (posixSplit path).1
      let basename := (posixSplit path).2
      if basename ≠ "" ∧ pyLower basename ∈ basenames then some (some path)
      else find_parent_folder fuel dirpath basenames

example : find_parent_folder 20 "/srv/app/.venv/bin" ["venv", ".venv", ".tox", "build"] =
    some (some "/srv/app/.venv") := by decide

example : find_parent_folder 20 "/srv/app" ["venv", ".venv", ".tox", "build"] =
    some none := by decide

/-- `posixpath.split` is a fixpoint on `"//"`, so the recursion never makes
progress from there. -/
theorem find_parent_folder_loops_on_root (bs : List String) :
    ∀ fuel, find_parent_folder fuel "//" bs = none := by
  intro fuel
  induction fuel with
  | zero => rfl
  | succ n ih =>
    rw [find_parent_folder]
    simp +decide [posixSplit, posixSplitL, rstripSlash]
    exact ih

/-- Claim C9, counterexample: on the input path `"//"` (POSIX double-slash
root) the recursion of `find_parent_folder` never reaches its base case —
`os.path.split("//")` returns `("//", "")` — so no finite recursion depth
suffices: the walker recurses unboundedly instead of returning. -/
theorem find_parent_folder_unbounded :
    ¬ ∃ fuel : Nat,
      (find_parent_folder fuel "//" ["venv", ".venv", ".tox", "build"]).isSome := by
  rintro ⟨fuel, h⟩
  rw [find_parent_folder_loops_on_root] at h
  simp at h

/-- `rstripSlash` yields a prefix of its input. -/
theorem rstripSlash_prefix_self (l : List Char) : rstripSlash l <+: l := by
  have h := List.reverse_prefix.mpr (List.dropWhile_suffix (l := l.reverse) (fun c => c = '/'))
  simpa [rstripSlash] using h

/-- Stripping trailing slashes strictly shortens a list that ends in one. -/
theorem rstripSlash_length_lt (l : List Char) (h : l.getLast? = some '/') :
    (rstripSlash l).length < l.length := by
  cases hr : l.reverse with
  | nil =>
    have hl : l = [] := by simpa using congrArg List.reverse hr
    rw [hl] at h
    simp at h
  | cons c t =>
    have hc : c = '/' := by
      have hh : l.reverse.head? = some '/' := by rw [List.head?_reverse]; exact h
      rw [hr] at hh
      simpa using hh
    have he : rstripSlash l = (t.dropWhile (fun c => c = '/')).reverse := by
      rw [rstripSlash, hr, List.dropWhile_cons]
      simp [hc]
    have h1 : (t.dropWhile (fun c => c = '/')).length ≤ t.length :=
      (List.dropWhile_suffix _).length_le
    have h2 : l.length = t.length + 1 := by
      have := congrArg List.length hr
      simpa using this
    rw [he, List.length_reverse]
    omega

/-- A nonempty all-slash list of length at least two starts with two slashes. -/
theorem all_slash_starts_two_slash (h : List Char) (hall : h.all (fun c => c = '/') = true)
    (hlen : 2 ≤ h.length) : ['/', '/'] <+: h := by
  rcases h with _ | ⟨a, _ | ⟨b, rest⟩⟩
  · simp at hlen
  · simp at hlen
  · simp only [List.all_cons, Bool.and_eq_true, decide_eq_true_eq] at hall
    rw [hall.1, hall.2.1]
    exact ⟨rest, rfl⟩

/-- If no character after the last slash exists, the list ends in a slash. -/
theorem tail_nil_last_slash (l : List Char) (hl : l ≠ [])
    (h : l.reverse.takeWhile (fun c => c ≠ '/') = []) : l.getLast? = some '/' := by
  cases hr : l.reverse with
  | nil =>
    exact absurd (by simpa using congrArg List.reverse hr) hl
  | cons c t =>
    have hc : c = '/' := by
      rw [hr, List.takeWhile_cons] at h
      by_cases hcc : c = '/'
      · exact hcc
      · simp [hcc] at h
    rw [← List.head?_reverse, hr, hc]
    rfl

/-- One `os.path.split` step away from a double-slash root strictly shortens
the path, and its head again avoids the double-slash root. -/
theorem posixSplitL_shrinks (l : List Char) (hp : ¬ ['/', '/'] <+: l)
    (hl : 1 < l.length) :
    (posixSplitL l).1.length < l.length ∧ ¬ ['/', '/'] <+: (posixSplitL l).1 := by
  simp only [posixSplitL]
  obtain ⟨tl, htl⟩ : ∃ tl, (l.reverse.takeWhile (fun c => c ≠ '/')).reverse = tl := ⟨_, rfl⟩
  obtain ⟨hd, hhd⟩ : ∃ hd, l.take (l.length - tl.length) = hd := ⟨_, rfl⟩
  rw [htl, hhd]
  have hpre : hd <+: l := hhd ▸ List.take_prefix _ l
  by_cases hc : hd ≠ [] ∧ ¬ hd.all (fun c => c = '/')
  · rw [if_pos hc]
    dsimp only
    constructor
    · by_cases ht : tl = []
      · have hnil : l ≠ [] := by
          intro he
          rw [he] at hl
          simp at hl
        have hlast : l.getLast? = some '/' := by
          apply tail_nil_last_slash l hnil
          have : (l.reverse.takeWhile (fun c => c ≠ '/')).reverse = [] := htl.trans ht
          simpa using this
        have hfull : hd = l := by
          rw [← hhd, ht]
          simp
        rw [hfull]
        exact rstripSlash_length_lt l hlast
      · have h1 : (rstripSlash hd).length ≤ hd.length := (rstripSlash_prefix_self hd).length_le
        have h2 : hd.length ≤ l.length - tl.length := by
          rw [← hhd]
          simp
        have h3 : 0 < tl.length := List.length_pos.mpr ht
        omega
    · intro hcontra
      exact hp (hcontra.trans ((rstripSlash_prefix_self hd).trans hpre))
  · rw [if_neg hc]
    dsimp only
    by_cases hnil : hd = []
    · subst hnil
      refine ⟨by simp only [List.length_nil]; omega, ?_⟩
      intro hcontra
      have := List.prefix_nil.mp hcontra
      simp at this
    · have hall : hd.all (fun c => c = '/') = true := by
        by_contra hno
        exact hc ⟨hnil, fun hyes => hno hyes⟩
      have hlen1 : hd.length ≤ 1 := by
        by_contra hgt
        push_neg at hgt
        exact hp ((all_slash_starts_two_slash hd hall hgt).trans hpre)
      refine ⟨by omega, ?_⟩
      intro hcontra
      have := hcontra.length_le
      simp at this
      omega

/-- The `String`-level version of `posixSplitL_shrinks`, phrased through
`posixSplit` and `pyStartswith`. -/
theorem posixSplit_shrinks (p : String) (hp : pyStartswith p "//" = false)
    (hl : 1 < p.length) :
    (posixSplit p).1.length < p.length ∧ pyStartswith (posixSplit p).1 "//" = false := by
  have hp' : ¬ ['/', '/'] <+: p.data := by
    intro hc
    have h1 := List.isPrefixOf_iff_prefix.mpr hc
    have hdd : ("//" : String).data = ['/', '/'] := rfl
    rw [pyStartswith, hdd, h1] at hp
    exact Bool.noConfusion hp
  have hl' : 1 < p.data.length := hl
  obtain ⟨ha, hb⟩ := posixSplitL_shrinks p.data hp' hl'
  constructor
  · exact ha
  · show (['/', '/'] : List Char).isPrefixOf (posixSplitL p.data).1 = false
    rw [Bool.eq_false_iff]
    intro hc
    exact hb (List.isPrefixOf_iff_prefix.mp hc)

/-- With fuel exceeding the path length, the walker always returns, provided
the path does not begin with a POSIX double-slash root. -/
theorem find_parent_folder_total (n : Nat) : ∀ (path : String) (bs : List String),
    pyStartswith path "//" = false → path.length < n →
    (find_parent_folder n path bs).isSome := by
  induction n with
  | zero =>
    intro path bs _ hlen
    omega
  | succ m ih =>
    intro path bs h hlen
    rw [find_parent_folder]
    by_cases hb : path.length ≤ 1
    · simp [hb]
    · obtain ⟨ha, hb2⟩ := posixSplit_shrinks path h (by omega)
      by_cases hm : (posixSplit path).2 ≠ "" ∧ pyLower (posixSplit path).2 ∈ bs
      · simp [hb, hm]
      · simp only [if_neg hb, if_neg hm]
        exact ih (posixSplit path).1 bs hb2 (by omega)

/-- Claim C9 (amended): `find_parent_folder` terminates — within
`path.length + 1` recursive steps — for every input path that does not start
with `"//"`.  (As stated the claim fails: `os.path.split` is a fixpoint on
all-slash strings of length at least two, so on any path rooted at the POSIX
double-slash root, e.g. `"//"` itself, the recursion never reaches the base
case — see the counterexample.) -/
theorem find_parent_folder_terminates (path : String) (bs : List String)
    (h : pyStartswith path "//" = false) :
    (find_parent_folder (path.length + 1) path bs).isSome :=
  find_parent_folder_total (path.length + 1) path bs h (by omega)

theorem find_parent_folder_terminates_witness :
    pyStartswith "/srv/app/.venv/bin" "//" = false ∧
      (find_parent_folder ("/srv/app/.venv/bin".length + 1) "/srv/app/.venv/bin"
          [".venv"]).isSome :=
  ⟨by decide, find_parent_folder_terminates "/srv/app/.venv/bin" [".venv"] (by decide)⟩

/-! ### Message rendering, error policy, effects -/

/-- Python `s.replace(old, new)` on character lists: replace every
non-overlapping occurrence, scanning left to right.  (The empty-pattern case
is guarded away; the embedded callers only ever replace nonempty anchors and
the home folder.) -/
def replaceL (l old new : List Char) : List Char :=
  if h : old ≠ [] ∧ old.isPrefixOf l then new ++ replaceL (l.drop old.length) old new
  else
    match l with
    | [] => []
    | c :: t => c :: replaceL t old new
termination_by l.length
decreasing_by
  · have h1 : old.length ≤ l.length := (List.isPrefixOf_iff_prefix.mp h.2).length_le
    have h2 : 0 < old.length := List.length_pos.mpr h.1
    simp only [List.length_drop]
    omega
  · simp only [List.length_cons]
    omega

/-- Python `s.replace(old, new)` at the `String` level. -/
def pyReplace (s old new : String) : String :=
  ⟨replaceL s.data old.data new.data⟩

example : pyReplace "/home/u/x" "/home/u" "~" = "~/x" := by
  simp +decide [pyReplace, replaceL]

/-- Embeds `short` (runez.py lines 238-256): strip every nonempty anchor
followed by a slash, then replace the home folder with `~`; a falsy path is
returned as is. -/
def short (w : Sys) (path : String) : String :=
  if path = "" then path
  else
    pyReplace
      (w.anchors.foldl (fun acc a => if a ≠ "" then pyReplace acc (a ++ "/") "" else acc) path)
      w.home "~"

/-- Embeds `quoted` (runez.py lines 303-311): wrap in quotes when the text
contains a space, preferring double quotes unless the text has one. -/
def quoted (text : String) : String :=
  if text ≠ "" ∧ pyIn " " text = true then
    if pyIn "\"" text = true then "\x27" ++ text ++ "\x27" else "\"" ++ text ++ "\""
  else text

/-- Python `sep.join(parts)`. -/
def pyJoin (sep : String) : List String → String
  | [] => ""
  | [x] => x
  | x :: xs => x ++ sep ++ pyJoin sep xs

/-- Embeds `represented_args` (runez.py lines 314-324): each argument is
shortened, quoted if needed, and the results are space-joined.  This is the
rendering `run` uses for its log line (program.py's `quoted(args)` comes from
`runez.system`, whose source is not in the tree; the in-tree `run_program`
renders the same way via `represented_args`). -/
def represented_args (w : Sys) (args : List String) : String :=
  pyJoin " " (args.map fun t => quoted (short w t))

/-- The observable side effects of the embedded process layer: logging calls,
`subprocess.Popen`, and the temp-folder operations of `_WrappedArgs`. -/
inductive Effect where
  | log : String → Effect
  | logWarn : String → Effect
  | logError : String → Effect
  | popen : List String → Effect
  | mkdtemp : String → Effect
  | writeFile : String → Effect
  | rmtree : String → Effect
deriving DecidableEq

/-- How a call of the embedded code finishes: `exit code` models
`sys.exit(code)` (a propagating `SystemExit`/abort exception), `ret v` a
normal Python return value. -/
inductive Outcome where
  | exit : Int → Outcome
  | ret : PyVal → Outcome
deriving DecidableEq

/-- Python truthiness of the `fatal` tri-state argument
(`True` / `False` / `None`). -/
def pyTruthy : Option Bool → Bool
  | some b => b
  | none => false

/-- Embeds `abort` (runez.py lines 379-403): unless quiet, log the message —
through the warning logger when the exit code is 0, as an error otherwise —
then `sys.exit(code)` when `fatal` is truthy, else return `return_value`
(default `-1`) to the caller. -/
def abort (msg : String) (code : Int) (fatal : Option Bool) (quiet : Bool)
    (returnValue : PyVal) : Outcome × List Effect :=
  let eff := if quiet then [] else if code = 0 then [Effect.logWarn msg] else [Effect.logError msg]
  if pyTruthy fatal = true then (Outcome.exit code, eff) else (Outcome.ret returnValue, eff)

/-! ### The `_WrappedArgs` context manager -/

/-- The `__enter__` condition of `_WrappedArgs` (program.py line 357): not on
Windows, `PYCHARM_HOSTED` present, at least two argv entries, a python
interpreter as argv[0], and a `-m`/`-X` style argv[1]. -/
def wrapCond (windows pycharmHosted : Bool) (args : List String) : Bool :=
  !windows && pycharmHosted && decide (1 < args.length) &&
    pyIn "python" (args.headD "") &&
    (pyTake (args.getD 1 "") 2 == "-m" || pyTake (args.getD 1 "") 2 == "-X")

/-- The state `_WrappedArgs` carries between `__enter__` and `__exit__`. -/
structure WrapState where
  tmpFolder : Option String
deriving DecidableEq

/-- `_WrappedArgs.__enter__` (program.py lines 355-365): when the workaround
applies, record a fresh temp folder (`tempfile.mkdtemp`, modelled by the
caller-supplied fresh name `tmpName`), write the wrapper script into it, and
yield the argv prefixed with `/bin/sh wrapper`; otherwise yield argv
untouched.  Returns (state, yielded argv, entry effects). -/
def wrapEnter (windows pycharmHosted : Bool) (tmpName : String) (args : List String) :
    WrapState × List String × List Effect :=
  if wrapCond windows pycharmHosted args then
    (⟨some tmpName⟩, "/bin/sh" :: pjoin tmpName "pydev-wrapper.sh" :: args,
      [Effect.mkdtemp tmpName, Effect.writeFile (pjoin tmpName "pydev-wrapper.sh")])
  else
    (⟨none⟩, args, [])

/-- `_WrappedArgs.__exit__` (program.py lines 367-369): delete the temp
folder when one was created, otherwise do nothing. -/
def wrapExit (st : WrapState) : List Effect :=
  match st.tmpFolder with
  | some f => [Effect.rmtree f]
  | none => []

/-- The argv that the `with _WrappedArgs(...) as args:` block hands to
`subprocess.Popen`. -/
def wrapYield (windows pycharmHosted : Bool) (tmpName : String) (args : List String) :
    List String :=
  (wrapEnter windows pycharmHosted tmpName args).2.1

/-- Runs a body under `with _WrappedArgs(args) as wrapped:`.  Per Python's
`with` statement, `__exit__` runs on every way out of the block — normal
return and propagating exception (`Outcome.exit`) alike — so its effects
always follow the body's. -/
def withWrappedArgs (windows pycharmHosted : Bool) (tmpName : String) (args : List String)
    (body : List String → Outcome × List Effect) : Outcome × List Effect :=
  match wrapEnter windows pycharmHosted tmpName args with
  | (st, wargs, enterEff) =>
    ((body wargs).1, enterEff ++ (body wargs).2 ++ wrapExit st)

/-- Effects that neither create nor delete folders. -/
def fsNeutral : Effect → Bool
  | .mkdtemp _ => false
  | .rmtree _ => false
  | _ => true

/-- One effect acting on the set of existing temp folders. -/
def applyEffect (fs : List String) : Effect → List String
  | .mkdtemp f => fs ++ [f]
  | .rmtree f => fs.filter fun x => x ≠ f
  | _ => fs

/-- A trace of effects acting on the set of existing temp folders. -/
def runEffects (fs : List String) (effs : List Effect) : List String :=
  effs.foldl applyEffect fs

/-- Folder-neutral traces leave the folder set unchanged. -/
theorem runEffects_neutral (effs : List Effect) : ∀ fs : List String,
    (∀ e ∈ effs, fsNeutral e = true) → runEffects fs effs = fs := by
  induction effs with
  | nil => intro fs _; rfl
  | cons e rest ih =>
    intro fs h
    have he : fsNeutral e = true := h e (by simp)
    have hstep : applyEffect fs e = fs := by
      cases e <;> simp_all [fsNeutral, applyEffect]
    rw [runEffects, List.foldl_cons, hstep]
    exact ih fs fun x hx => h x (by simp [hx])

/-- Claim C8: across a `with _WrappedArgs(...)` block whose body performs no
folder operations of its own, the set of existing temp folders is restored
on every exit path — normal return or propagating exception alike ­— because
`__exit__` deletes the wrapper folder exactly when `__enter__` created it;
and when no folder was created, `__exit__` deletes nothing at all. -/
theorem wrappedArgs_cleanup (windows pycharmHosted : Bool) (tmpName : String)
    (args : List String) (body : List String → Outcome × List Effect) (fs : List String)
    (hfs : tmpName ∉ fs)
    (hbody : ∀ a, ∀ e ∈ (body a).2, fsNeutral e = true) :
    runEffects fs (withWrappedArgs windows pycharmHosted tmpName args body).2 = fs ∧
      (wrapCond windows pycharmHosted args = false →
        ∀ f, Effect.rmtree f ∉ (withWrappedArgs windows pycharmHosted tmpName args body).2) := by
  constructor
  · rw [withWrappedArgs]
    by_cases hc : wrapCond windows pycharmHosted args = true
    · rw [wrapEnter, if_pos hc]
      dsimp only [wrapExit]
      rw [runEffects, List.foldl_append, List.foldl_append]
      have hbody2 := runEffects_neutral (body ("/bin/sh" :: pjoin tmpName "pydev-wrapper.sh" :: args)).2
        (fs ++ [tmpName]) (hbody _)
      rw [runEffects] at hbody2
      simp only [List.foldl_cons, List.foldl_nil, applyEffect]
      rw [hbody2]
      rw [List.filter_append]
      have h1 : fs.filter (fun x => x ≠ tmpName) = fs := by
        apply List.filter_eq_self.mpr
        intro a ha
        simp only [ne_eq, decide_eq_true_eq]
        intro he
        exact hfs (he ▸ ha)
      have h2 : List.filter (fun x => x ≠ tmpName) [tmpName] = [] := by simp
      rw [h1, h2, List.append_nil]
    · have hc' : wrapCond windows pycharmHosted args = false := by
        cases hcc : wrapCond windows pycharmHosted args
        · rfl
        · exact absurd hcc hc
      rw [wrapEnter, if_neg (by simp [hc'])]
      dsimp only [wrapExit]
      simp only [List.nil_append, List.append_nil]
      exact runEffects_neutral (body args).2 fs (hbody args)
  · intro hc f
    rw [withWrappedArgs, wrapEnter, if_neg (by simp [hc])]
    dsimp only [wrapExit]
    simp only [List.nil_append, List.append_nil]
    intro hmem
    have := hbody args (Effect.rmtree f) hmem
    simp [fsNeutral] at this

theorem wrappedArgs_cleanup_witness :
    ("/tmp/wrap0" ∉ (["/tmp/other"] : List String) ∧
        (∀ a : List String, ∀ e ∈ ([Effect.log "boom"] : List Effect), fsNeutral e = true)) ∧
      (runEffects ["/tmp/other"]
          (withWrappedArgs false true "/tmp/wrap0" ["python", "-m", "x"]
            (fun _ => (Outcome.exit 1, [Effect.log "boom"]))).2 = ["/tmp/other"] ∧
        (wrapCond false true ["python", "-m", "x"] = false →
          ∀ f, Effect.rmtree f ∉
            (withWrappedArgs false true "/tmp/wrap0" ["python", "-m", "x"]
              (fun _ => (Outcome.exit 1, [Effect.log "boom"]))).2)) :=
  ⟨⟨by decide, fun _ e he => by simp only [List.mem_singleton] at he; subst he; rfl⟩,
    wrappedArgs_cleanup false true "/tmp/wrap0" ["python", "-m", "x"]
      (fun _ => (Outcome.exit 1, [Effect.log "boom"])) ["/tmp/other"] (by decide)
      (fun _ e he => by simp only [List.mem_singleton] at he; subst he; rfl)⟩

/-! ### Process invocation (`run`) -/

/-- `runez.system.decode(value, strip=True)` as used by `run` on the
`communicate()` results: `None` stays `None`, a decoded string is stripped. -/
def decodeStrip : Option String → Option String :=
  fun s => s.map pyStrip

/-- Python `"%s" % value` for a string-or-None value (`None` renders as the
four-letter word). -/
def pyShow : Option String → String
  | none => "None"
  | some s => s

/-- Python truthiness of a string-or-None value. -/
def optTruthy : Option String → Bool
  | none => false
  | some s => decide (s ≠ "")

/-- What `subprocess.Popen` + `communicate()` produced: exit code and the
decoded stdout/stderr captures (None when a stream was not piped). -/
structure SpawnOk where
  returncode : Int
  out : Option String
  err : Option String
deriving DecidableEq

/-- Outcome of attempting the spawn: success, or an exception (its message). -/
inductive SpawnOutcome where
  | ok : SpawnOk → SpawnOutcome
  | exc : String → SpawnOutcome
deriving DecidableEq

/-- The `stdout`/`stderr` keyword arguments of `run`: the default
`subprocess.PIPE`, an explicit `None` (suppressed stream), or any other
file-like value. -/
inductive StreamSpec where
  | pipe
  | nullStream
  | other
deriving DecidableEq

/-- The keyword arguments of `run` that steer its control flow. -/
structure RunCfg where
  fatal : Option Bool
  dryrun : Bool
  includeError : Bool
  hasLogger : Bool
  stdout : StreamSpec
  stderr : StreamSpec
deriving DecidableEq

/-- The `"Would run: ..."` / `"Running: ..."` log line of `run`
(program.py lines 163-164). -/
def runLogMessage (w : Sys) (dryrun : Bool) (program : String) (args : List String) : String :=
  (if dryrun then "Would run" else "Running") ++ ": " ++
    short w ((which w (some program) false).getD program) ++ " " ++ represented_args w args

/-- The body of `run`'s `with _WrappedArgs(...)` block (program.py lines
180-209): spawn, collect, decode; on both-streams-suppressed return the exit
code (aborting on nonzero when fatal); otherwise abort on tolerated-fatal
nonzero exit, else assemble the output string.  Exceptions out of the spawn
funnel into the `except` clause's abort.  The `path_env` merge is omitted:
it only rewrites the environment handed to `Popen`, which is outside the
effect alphabet. -/
def runSpawnBody (w : Sys) (spawn : List String → SpawnOutcome) (program : String)
    (cfg : RunCfg) (wargs : List String) : Outcome × List Effect :=
  match spawn wargs with
  | .exc emsg =>
    abort (short w program ++ " failed: " ++ emsg) 1 cfg.fatal false (PyVal.vint (-1))
  | .ok r =>
    let output := decodeStrip r.out
    let err := decodeStrip r.err
    if cfg.stdout = StreamSpec.nullStream ∧ cfg.stderr = StreamSpec.nullStream then
      if r.returncode ≠ 0 ∧ pyTruthy cfg.fatal = true then
        match abort (short w program ++ " exited with code " ++ toString r.returncode)
            r.returncode cfg.fatal false (PyVal.vint (-1)) with
        | (o, e) => (o, Effect.popen wargs :: e)
      else
        (Outcome.ret (PyVal.vint r.returncode), [Effect.popen wargs])
    else
      if r.returncode ≠ 0 ∧ cfg.fatal ≠ none then
        match abort (short w program ++ " exited with code " ++ toString r.returncode ++
              pyStrip (if optTruthy output ∨ optTruthy err then
                ": " ++ pyShow err ++ "\n" ++ pyShow output else ""))
            r.returncode cfg.fatal false (PyVal.vint (-1)) with
        | (o, e) => (o, Effect.popen wargs :: e)
      else
        match if cfg.includeError = true ∧ optTruthy err = true then
            some (pyShow output ++ "\n" ++ pyShow err)
          else output with
        | none => (Outcome.ret PyVal.vnone, [Effect.popen wargs])
        | some s =>
          if s = "" then (Outcome.ret (PyVal.vstr s), [Effect.popen wargs])
          else (Outcome.ret (PyVal.vstr (pyStrip s)), [Effect.popen wargs])

/-- Embeds `run` (program.py lines 131-209).  `args` is the flat argument
list (`flattened(args, shellify=True)` of the source runs first; its
`runez.system` flavor is not in the tree, so the claims quantify over the
already-flattened list).  `windows`/`pycharmHosted`/`tmpName` feed the
`_WrappedArgs` workaround, and `spawn` stands for `subprocess.Popen` +
`communicate`. -/
def run (w : Sys) (windows pycharmHosted : Bool) (tmpName : String)
    (spawn : List String → SpawnOutcome) (program : String) (args : List String)
    (cfg : RunCfg) : Outcome × List Effect :=
  let full_path := which w (some program) false
  let logEff := if cfg.hasLogger then
    [Effect.log (runLogMessage w cfg.dryrun program args)] else []
  if cfg.dryrun then
    if cfg.stdout = StreamSpec.nullStream ∧ cfg.stderr = StreamSpec.nullStream then
      (Outcome.ret (PyVal.vint 0), logEff)
    else
      (Outcome.ret (PyVal.vstr (runLogMessage w cfg.dryrun program args)), logEff)
  else
    match full_path with
    | none =>
      match abort (short w program ++ " is not installed") 1 cfg.fatal false
          (PyVal.vint (-1)) with
      | (o, e) => (o, logEff ++ e)
    | some fp =>
      match withWrappedArgs windows pycharmHosted tmpName (fp :: args)
          (runSpawnBody w spawn program cfg) with
      | (o, e) => (o, logEff ++ e)

/-- `pyStartswith` is preserved by appending on the right. -/
theorem pyStartswith_mono (a b pre : String) (h : pyStartswith a pre = true) :
    pyStartswith (a ++ b) pre = true := by
  rw [pyStartswith] at h ⊢
  have h1 : pre.data <+: a.data := List.isPrefixOf_iff_prefix.mp h
  have h2 : (a ++ b).data = a.data ++ b.data := rfl
  rw [h2]
  exact List.isPrefixOf_iff_prefix.mpr (h1.trans (List.prefix_append _ _))

/-- The dry-run log line starts with `"Would run: "`. -/
theorem runLogMessage_dryrun (w : Sys) (program : String) (args : List String) :
    pyStartswith (runLogMessage w true program args) "Would run: " = true := by
  rw [runLogMessage]
  simp only [if_true]
  apply pyStartswith_mono
  apply pyStartswith_mono
  apply pyStartswith_mono
  decide

/-- Claim C1: with `dryrun=True`, `run` never spawns — the effect trace
contains no `Popen` call — and logs a `"Would run: ..."` line; it returns the
synthetic exit code 0 when both stdout and stderr were passed as `None`, and
otherwise the `"Would run: ..."` message string itself. -/
theorem run_dryrun_no_popen (w : Sys) (windows pycharmHosted : Bool) (tmpName : String)
    (spawn : List String → SpawnOutcome) (program : String) (args : List String)
    (cfg : RunCfg) (h : cfg.dryrun = true) :
    (∀ a, Effect.popen a ∉ (run w windows pycharmHosted tmpName spawn program args cfg).2) ∧
      (cfg.stdout = StreamSpec.nullStream ∧ cfg.stderr = StreamSpec.nullStream →
        (run w windows pycharmHosted tmpName spawn program args cfg).1 =
          Outcome.ret (PyVal.vint 0)) ∧
      (¬(cfg.stdout = StreamSpec.nullStream ∧ cfg.stderr = StreamSpec.nullStream) →
        ∃ m, (run w windows pycharmHosted tmpName spawn program args cfg).1 =
            Outcome.ret (PyVal.vstr m) ∧
          pyStartswith m "Would run: " = true ∧
          (cfg.hasLogger = true →
            Effect.log m ∈ (run w windows pycharmHosted tmpName spawn program args cfg).2)) := by
  refine ⟨?_, ?_, ?_⟩
  · intro a hmem
    by_cases hss : cfg.stdout = StreamSpec.nullStream ∧ cfg.stderr = StreamSpec.nullStream <;>
      by_cases hl : cfg.hasLogger = true <;>
      simp [run, h, hss, hl] at hmem
  · intro hss
    simp [run, h, hss]
  · intro hss
    refine ⟨runLogMessage w true program args, ?_, ?_, ?_⟩
    · simp [run, h, hss]
    · exact runLogMessage_dryrun w program args
    · intro hl
      by_cases hss2 : cfg.stdout = StreamSpec.nullStream ∧ cfg.stderr = StreamSpec.nullStream
      · exact absurd hss2 hss
      · simp [run, h, hss2, hl]

theorem run_dryrun_no_popen_witness :
    (({ fatal := some true, dryrun := true, includeError := false, hasLogger := true,
          stdout := StreamSpec.pipe, stderr := StreamSpec.pipe } : RunCfg).dryrun = true) ∧
      ((∀ a, Effect.popen a ∉
          (run wExample false false "/tmp/w0" (fun _ => SpawnOutcome.exc "boom") "ls" ["-l"]
            { fatal := some true, dryrun := true, includeError := false, hasLogger := true,
              stdout := StreamSpec.pipe, stderr := StreamSpec.pipe }).2) ∧
        (StreamSpec.pipe = StreamSpec.nullStream ∧ StreamSpec.pipe = StreamSpec.nullStream →
          (run wExample false false "/tmp/w0" (fun _ => SpawnOutcome.exc "boom") "ls" ["-l"]
            { fatal := some true, dryrun := true, includeError := false, hasLogger := true,
              stdout := StreamSpec.pipe, stderr := StreamSpec.pipe }).1 =
            Outcome.ret (PyVal.vint 0)) ∧
        (¬(StreamSpec.pipe = StreamSpec.nullStream ∧ StreamSpec.pipe = StreamSpec.nullStream) →
          ∃ m, (run wExample false false "/tmp/w0" (fun _ => SpawnOutcome.exc "boom") "ls" ["-l"]
              { fatal := some true, dryrun := true, includeError := false, hasLogger := true,
                stdout := StreamSpec.pipe, stderr := StreamSpec.pipe }).1 =
              Outcome.ret (PyVal.vstr m) ∧
            pyStartswith m "Would run: " = true ∧
            (true = true →
              Effect.log m ∈
                (run wExample false false "/tmp/w0" (fun _ => SpawnOutcome.exc "boom") "ls" ["-l"]
                  { fatal := some true, dryrun := true, includeError := false, hasLogger := true,
                    stdout := StreamSpec.pipe, stderr := StreamSpec.pipe }).2))) :=
  ⟨rfl,
    run_dryrun_no_popen wExample false false "/tmp/w0" (fun _ => SpawnOutcome.exc "boom")
      "ls" ["-l"]
      { fatal := some true, dryrun := true, includeError := false, hasLogger := true,
        stdout := StreamSpec.pipe, stderr := StreamSpec.pipe } rfl⟩

/-- Claim C2: with dry-run off and a program that `which` cannot resolve,
`run` spawns nothing and funnels the failure through `abort`: with truthy
`fatal` the process terminates via `sys.exit` with the default exit code 1
after logging the user-facing `"... is not installed"` error; with falsy
`fatal` the caller receives `abort`'s sentinel return value (-1) instead. -/
theorem run_missing_program_aborts (w : Sys) (windows pycharmHosted : Bool)
    (tmpName : String) (spawn : List String → SpawnOutcome) (program : String)
    (args : List String) (cfg : RunCfg) (hdr : cfg.dryrun = false)
    (hw : which w (some program) false = none) :
    (∀ a, Effect.popen a ∉ (run w windows pycharmHosted tmpName spawn program args cfg).2) ∧
      (pyTruthy cfg.fatal = true →
        (run w windows pycharmHosted tmpName spawn program args cfg).1 = Outcome.exit 1 ∧
          Effect.logError (short w program ++ " is not installed") ∈
            (run w windows pycharmHosted tmpName spawn program args cfg).2) ∧
      (pyTruthy cfg.fatal = false →
        (run w windows pycharmHosted tmpName spawn program args cfg).1 =
          Outcome.ret (PyVal.vint (-1))) := by
  refine ⟨?_, ?_, ?_⟩
  · intro a hmem
    by_cases hf : pyTruthy cfg.fatal = true <;>
      by_cases hl : cfg.hasLogger = true <;>
      simp [run, hdr, hw, abort, hf, hl] at hmem
  · intro hf
    constructor
    · simp [run, hdr, hw, abort, hf]
    · by_cases hl : cfg.hasLogger = true <;> simp [run, hdr, hw, abort, hf, hl]
  · intro hf
    simp [run, hdr, hw, abort, hf]

theorem run_missing_program_aborts_witness :
    (({ fatal := some true, dryrun := false, includeError := false, hasLogger := true,
          stdout := StreamSpec.pipe, stderr := StreamSpec.pipe } : RunCfg).dryrun = false ∧
        which wExample (some "absent") false = none) ∧
      (pyTruthy (some true) = true →
        (run wExample false false "/tmp/w0" (fun _ => SpawnOutcome.exc "boom") "absent" []
            { fatal := some true, dryrun := false, includeError := false, hasLogger := true,
              stdout := StreamSpec.pipe, stderr := StreamSpec.pipe }).1 = Outcome.exit 1 ∧
          Effect.logError (short wExample "absent" ++ " is not installed") ∈
            (run wExample false false "/tmp/w0" (fun _ => SpawnOutcome.exc "boom") "absent" []
              { fatal := some true, dryrun := false, includeError := false, hasLogger := true,
                stdout := StreamSpec.pipe, stderr := StreamSpec.pipe }).2) :=
  ⟨⟨rfl, by decide⟩,
    (run_missing_program_aborts wExample false false "/tmp/w0" (fun _ => SpawnOutcome.exc "boom")
        "absent" []
        { fatal := some true, dryrun := false, includeError := false, hasLogger := true,
          stdout := StreamSpec.pipe, stderr := StreamSpec.pipe } rfl (by decide)).2.1⟩

/-- The outcome of the wrapped block is the body's outcome on the yielded
argv (`__exit__` only adds cleanup effects). -/
theorem withWrappedArgs_fst (windows pycharmHosted : Bool) (tmpName : String)
    (args : List String) (body : List String → Outcome × List Effect) :
    (withWrappedArgs windows pycharmHosted tmpName args body).1 =
      (body (wrapYield windows pycharmHosted tmpName args)).1 := by
  rw [withWrappedArgs, wrapYield]

/-- Claim C6: when the caller suppresses both streams (`stdout=None`,
`stderr=None`), dry-run is off, the program resolves, and the spawn succeeds,
`run` returns the child's integer exit code — not captured output; in
particular a non-zero code is returned as that integer whenever `fatal` is
tolerant (falsy), and code 0 is returned as 0 regardless. -/
theorem run_null_streams_exit_code (w : Sys) (windows pycharmHosted : Bool)
    (tmpName : String) (spawn : List String → SpawnOutcome) (program : String)
    (args : List String) (cfg : RunCfg) (fp : String) (r : SpawnOk)
    (hdr : cfg.dryrun = false)
    (hw : which w (some program) false = some fp)
    (hs : spawn (wrapYield windows pycharmHosted tmpName (fp :: args)) = SpawnOutcome.ok r)
    (h1 : cfg.stdout = StreamSpec.nullStream) (h2 : cfg.stderr = StreamSpec.nullStream)
    (htol : r.returncode = 0 ∨ pyTruthy cfg.fatal = false) :
    (run w windows pycharmHosted tmpName spawn program args cfg).1 =
      Outcome.ret (PyVal.vint r.returncode) := by
  have hcond : ¬(r.returncode ≠ 0 ∧ pyTruthy cfg.fatal = true) := by
    rcases htol with h | h
    · intro hc
      exact hc.1 h
    · intro hc
      rw [h] at hc
      exact Bool.noConfusion hc.2
  have hbody : (runSpawnBody w spawn program cfg
      (wrapYield windows pycharmHosted tmpName (fp :: args))).1 =
      Outcome.ret (PyVal.vint r.returncode) := by
    rw [runSpawnBody]
    simp [hs, h1, h2, hcond]
  rcases hrun : run w windows pycharmHosted tmpName spawn program args cfg with ⟨o, tr⟩
  rw [run] at hrun
  simp only [hdr, hw, if_false, Bool.false_eq_true] at hrun
  rw [← hbody, ← withWrappedArgs_fst windows pycharmHosted tmpName (fp :: args)
    (runSpawnBody w spawn program cfg)]
  rcases hww : withWrappedArgs windows pycharmHosted tmpName (fp :: args)
      (runSpawnBody w spawn program cfg) with ⟨o2, e2⟩
  rw [hww] at hrun
  simp at hrun
  exact hrun.1 ▸ rfl

theorem run_null_streams_exit_code_witness :
    (({ fatal := some false, dryrun := false, includeError := false, hasLogger := true,
          stdout := StreamSpec.nullStream, stderr := StreamSpec.nullStream } : RunCfg).dryrun
          = false ∧
        which wExample (some "ls") false = some "/usr/bin/ls" ∧
        (fun _ => SpawnOutcome.ok ⟨3, none, none⟩ : List String → SpawnOutcome)
            (wrapYield false false "/tmp/w0" ("/usr/bin/ls" :: ["-l"])) =
          SpawnOutcome.ok ⟨3, none, none⟩ ∧
        ((3 : Int) = 0 ∨ pyTruthy (some false) = false)) ∧
      (run wExample false false "/tmp/w0" (fun _ => SpawnOutcome.ok ⟨3, none, none⟩) "ls" ["-l"]
          { fatal := some false, dryrun := false, includeError := false, hasLogger := true,
            stdout := StreamSpec.nullStream, stderr := StreamSpec.nullStream }).1 =
        Outcome.ret (PyVal.vint 3) :=
  ⟨⟨rfl, by decide, rfl, Or.inr rfl⟩,
    run_null_streams_exit_code wExample false false "/tmp/w0"
      (fun _ => SpawnOutcome.ok ⟨3, none, none⟩) "ls" ["-l"]
      { fatal := some false, dryrun := false, includeError := false, hasLogger := true,
        stdout := StreamSpec.nullStream, stderr := StreamSpec.nullStream }
      "/usr/bin/ls" ⟨3, none, none⟩ rfl (by decide) rfl rfl rfl (Or.inr rfl)⟩

end Runez
